import Mathlib

/-!
Shallow embedding of the forecasting-and-reorder engine of `app.py`
(Sales_Inventory dashboard).

Modelling conventions:
* A parsed calendar date is a natural number in `YYYYMMDD` encoding, so the
  usual order on `Nat` is chronological order and the month key
  (`dt.to_period("M")`, a `"YYYY-MM"` string whose lexicographic order is
  chronological) is `date / 100`, the year key (`dt.year`) is `date / 10000`.
* `pd.to_datetime(col, errors='coerce')` is an external parser; a raw date
  cell is therefore modelled post-coercion as `Option Nat` (`none` = `NaT`).
* A raw demand cell may be numeric or textual (`Cell`), since the script
  never coerces the demand column; the analytics stage works on numeric
  demand (`ℚ`, exact arithmetic in place of IEEE floats).
* A missing / NaN inventory value is `Option ℚ` with `none` for NaN; the
  pandas comparison `NaN < x` is `False`, which the shortage flag mirrors.
* Python `int(...)` on the non-negative value `max(0, forecast)` is the
  floor, i.e. `Rat.floor`.
-/

/-- Raw cell content of the demand column before any cleaning: either a
numeric value or a non-numeric string. -/
inductive Cell where
  | num (q : ℚ)
  | str (s : String)
  deriving DecidableEq, Repr

/-- One row of the uploaded table after `pd.to_datetime(..., errors='coerce')`
has been applied to the selected date column (`app.py` line 61): `date` is
`none` exactly when the original value was unparseable (NaT). -/
structure RawRow where
  date : Option Nat
  product : String
  demand : Cell
  inventory : Option ℚ
  deriving DecidableEq, Repr

/-- Number of rows whose date failed to parse:
`invalid_count = df[date_col].isna().sum()` (`app.py` line 64). -/
def invalidCount (t : List RawRow) : Nat :=
  (t.filter (fun r => r.date.isNone)).length

/-- `df = df.dropna(subset=[date_col])` (`app.py` line 68); when
`invalid_count == 0` the script skips the call, which is the identity. -/
def dropInvalid (t : List RawRow) : List RawRow :=
  t.filter (fun r => r.date.isSome)

/-- The DATA PREP stage (`app.py` lines 59-72): drop rows with unparseable
dates, report their count, and halt with an error when the cleaned table is
empty (`st.error` + `st.stop`). -/
def prepare (t : List RawRow) : Except String (Nat × List RawRow) :=
  let cleaned := dropInvalid t
  if cleaned.isEmpty then
    Except.error "No valid date data found in the selected column."
  else
    Except.ok (invalidCount t, cleaned)

/-- A row of the cleaned table as the analytics stage sees it: a parsed date
(`YYYYMMDD`), a product id, a numeric demand value, and an optional (possibly
NaN) inventory level. -/
structure Row where
  date : Nat
  product : String
  demand : ℚ
  inventory : Option ℚ
  deriving DecidableEq, Repr

/-- Month key of a `YYYYMMDD` date: `df[date_col].dt.to_period("M")`
(`app.py` line 76); ordering month keys as numbers is ordering the
`"YYYY-MM"` strings lexicographically. -/
def monthOf (d : Nat) : Nat := d / 100

/-- Year key of a `YYYYMMDD` date: `df[date_col].dt.year` (`app.py` line 75). -/
def yearOf (d : Nat) : Nat := d / 10000

/-- `filtered_df.groupby(key)[demand_col].sum()` (`app.py` lines 94-99 and
147): one output pair per distinct key, keys in ascending order, each paired
with the sum of the demand of the rows having that key — rows in the same
bucket are summed, never overwritten. -/
def aggregate (key : Row → Nat) (t : List Row) : List (Nat × ℚ) :=
  (List.insertionSort (· ≤ ·) ((t.map key).dedup)).map
    (fun c => (c, ((t.filter (fun r => key r == c)).map (·.demand)).sum))

/-- The per-product monthly demand series of the forecast loop:
`group.sort_values(date_col).groupby("Month")[demand_col].sum()`
(`app.py` lines 146-147), as the list of monthly sums in chronological
order. -/
def monthlySeries (t : List Row) (p : String) : List ℚ :=
  (aggregate (fun r => monthOf r.date) (t.filter (fun r => r.product == p))).map
    (·.2)

/-- `series.pct_change().replace([np.inf, -np.inf], np.nan).dropna()`
(`app.py` line 153): the consecutive change `b / a - 1` is kept exactly when
the denominator `a` is non-zero (`a = 0` gives `±inf` for `b ≠ 0`, replaced
by NaN and dropped, and `NaN` for `b = 0`, dropped). -/
def growthRates : List ℚ → List ℚ
  | a :: b :: rest =>
      (if a = 0 then [] else [b / a - 1]) ++ growthRates (b :: rest)
  | _ => []

/-- `avg_growth = growth_rates.mean() if not growth_rates.empty else 0`
(`app.py` line 154). -/
def avgGrowth (s : List ℚ) : ℚ :=
  let g := growthRates s
  if g.isEmpty then 0 else g.sum / (g.length : ℚ)

/-- `last_value = series.iloc[-1]` (`app.py` line 156); the call site is
guarded by `len(series) >= 2`, so the default for the empty list is never
reached. -/
def lastValue (s : List ℚ) : ℚ := s.getLast?.getD 0

/-- `forecast_value = last_value * (1 + avg_growth) ** forecast_horizon`
(`app.py` line 158). -/
def forecastValue (s : List ℚ) (H : Nat) : ℚ :=
  lastValue s * (1 + avgGrowth s) ^ H

/-- `"Predicted Demand": int(max(0, forecast_value))` (`app.py` line 164);
Python `int` truncates toward zero, which on the non-negative value
`max 0 _` is the floor. -/
def predictedDemand (s : List ℚ) (H : Nat) : ℤ :=
  ⌊max 0 (forecastValue s H)⌋

/-- The distinct products of the table, as enumerated by
`df.groupby(product_col)` (`app.py` line 146); the claims below only depend
on which products occur, not on their order. -/
def productsOf (t : List Row) : List String := (t.map (·.product)).dedup

/-- The forecast table (`app.py` lines 143-167): one row
`(product, Predicted Demand)` per product whose monthly series has at least
2 periods; shorter series are skipped by `continue` (lines 149-150). -/
def forecastTable (t : List Row) (H : Nat) : List (String × ℤ) :=
  (productsOf t).filterMap (fun p =>
    let s := monthlySeries t p
    if s.length < 2 then none
    else some (p, predictedDemand s H))

/-- `df.sort_values(date_col)` (`app.py` line 180): a stable sort of the
rows by date. -/
def sortByDate (t : List Row) : List Row :=
  List.insertionSort (fun a b => a.date ≤ b.date) t

/-- `df.sort_values(date_col).groupby(product_col).tail(1)[[product, inv]]`
followed by the left merge on the product (`app.py` lines 179-190): the
inventory value of the product's most recent row by date, `none` when that
value is NaN or the product has no row at all (unmatched left merge). -/
def latestInventory (t : List Row) (p : String) : Option ℚ :=
  (((sortByDate t).filter (fun r => r.product == p)).getLast?).bind
    (·.inventory)

/-- `alert_df[inventory_col] < alert_df["Predicted Demand"]`
(`app.py` line 192): pandas comparison of a possibly-NaN inventory with the
predicted demand; a NaN (or merge-missing) inventory compares `False`. -/
def shortageFlag (inv : Option ℚ) (d : ℤ) : Bool :=
  match inv with
  | some v => decide (v < (d : ℚ))
  | none => false

/-- The shortage-alert table (`app.py` lines 177-193): the forecast table
left-merged with the latest inventory per product, with the boolean
`Shortage` column. -/
def alertTable (t : List Row) (H : Nat) : List (String × ℤ × Bool) :=
  (forecastTable t H).map
    (fun pd => (pd.1, pd.2, shortageFlag (latestInventory t pd.1) pd.2))

/-! ### Helper lemmas -/

section Helpers

/-- Summing an indicator over a duplicate-free key list that misses `k`
gives `0`. -/
lemma sum_map_ite_of_not_mem (keys : List Nat) (x : ℚ) (k : Nat)
    (hk : k ∉ keys) :
    (keys.map (fun c => if k = c then x else 0)).sum = 0 := by
  induction keys with
  | nil => simp
  | cons c cs ih =>
      have hne : k ≠ c := fun h => hk (h ▸ List.mem_cons_self c cs)
      have hk2 : k ∉ cs := fun h => hk (List.mem_cons_of_mem c h)
      simp [hne, ih hk2]

/-- Summing an indicator over a duplicate-free key list containing `k`
gives the indicated value. -/
lemma sum_map_ite (keys : List Nat) (x : ℚ) (k : Nat)
    (hnd : keys.Nodup) (hk : k ∈ keys) :
    (keys.map (fun c => if k = c then x else 0)).sum = x := by
  induction keys with
  | nil => cases hk
  | cons c cs ih =>
      rcases List.mem_cons.mp hk with h | h
      · subst h
        have hkcs : k ∉ cs := (List.nodup_cons.mp hnd).1
        simp [sum_map_ite_of_not_mem cs x k hkcs]
      · have hne : k ≠ c := by
          rintro rfl
          exact (List.nodup_cons.mp hnd).1 h
        simp only [List.map_cons, List.sum_cons, if_neg hne, zero_add]
        exact ih (List.nodup_cons.mp hnd).2 h

/-- Pointwise sums distribute over a mapped list. -/
lemma sum_map_add_fun (keys : List Nat) (g h : Nat → ℚ) :
    (keys.map (fun c => g c + h c)).sum = (keys.map g).sum + (keys.map h).sum := by
  induction keys with
  | nil => simp
  | cons c cs ih => simp [ih]; ring

/-- Fiberwise summation: summing, over a duplicate-free list of keys that
covers a list `l`, the sums of the values of the elements in each fiber,
recovers the total sum of the values. -/
lemma sum_fibers {α : Type} (key : α → Nat) (f : α → ℚ) (l : List α)
    (keys : List Nat) (hnd : keys.Nodup) (hcov : ∀ a ∈ l, key a ∈ keys) :
    (keys.map (fun c => ((l.filter (fun a => key a == c)).map f).sum)).sum
      = (l.map f).sum := by
  induction l with
  | nil => simp
  | cons a rest ih =>
      have hstep : ∀ c : Nat,
          (((a :: rest).filter (fun x => key x == c)).map f).sum
            = (if key a = c then f a else 0)
              + ((rest.filter (fun x => key x == c)).map f).sum := by
        intro c
        by_cases h : key a = c
        · simp [List.filter_cons, h]
        · simp [List.filter_cons, h]
      calc (keys.map (fun c => (((a :: rest).filter (fun x => key x == c)).map f).sum)).sum
          = (keys.map (fun c => (if key a = c then f a else 0)
              + ((rest.filter (fun x => key x == c)).map f).sum)).sum := by
            exact congrArg List.sum (List.map_congr_left fun c _ => hstep c)
        _ = (keys.map (fun c => if key a = c then f a else 0)).sum
              + (keys.map (fun c => ((rest.filter (fun x => key x == c)).map f).sum)).sum :=
            sum_map_add_fun keys _ _
        _ = f a + (rest.map f).sum := by
            rw [sum_map_ite keys (f a) (key a) hnd (hcov a (List.mem_cons_self a rest)),
              ih (fun x hx => hcov x (List.mem_cons_of_mem a hx))]
        _ = ((a :: rest).map f).sum := by simp

/-- The key list used by `aggregate` has no duplicates. -/
lemma groupKeys_nodup (key : Row → Nat) (t : List Row) :
    (List.insertionSort (· ≤ ·) ((t.map key).dedup)).Nodup :=
  (List.Perm.nodup_iff (List.perm_insertionSort (· ≤ ·) _)).mpr
    (List.nodup_dedup _)

/-- The key list used by `aggregate` covers every row of the table. -/
lemma groupKeys_cover (key : Row → Nat) (t : List Row) :
    ∀ r ∈ t, key r ∈ List.insertionSort (· ≤ ·) ((t.map key).dedup) := by
  intro r hr
  exact (List.Perm.mem_iff (List.perm_insertionSort (· ≤ ·) _)).mpr
    (List.mem_dedup.mpr (List.mem_map_of_mem key hr))

/-- Summing the aggregated column recovers the sum of the raw demand
column. -/
lemma aggregate_sum (key : Row → Nat) (t : List Row) :
    ((aggregate key t).map (·.2)).sum = (t.map (·.demand)).sum := by
  unfold aggregate
  rw [List.map_map]
  exact sum_fibers key (·.demand) t _ (groupKeys_nodup key t)
    (groupKeys_cover key t)

/-- Every value in the aggregated table is the sum of the demand of all the
rows of its bucket. -/
lemma aggregate_mem_val (key : Row → Nat) (t : List Row) (c : Nat) (v : ℚ)
    (h : (c, v) ∈ aggregate key t) :
    v = ((t.filter (fun r => key r == c)).map (·.demand)).sum := by
  unfold aggregate at h
  rcases List.mem_map.mp h with ⟨c0, _, hc0⟩
  have h1 : c0 = c := congrArg Prod.fst hc0
  have h2 := congrArg Prod.snd hc0
  simp only at h2
  rw [← h2, h1]

end Helpers

section GrowthLemmas

/-- Every kept period-over-period change of a non-negative series is at
least `-1`. -/
lemma growthRates_ge_neg_one (s : List ℚ) (hs : ∀ x ∈ s, 0 ≤ x) :
    ∀ g ∈ growthRates s, -1 ≤ g := by
  induction s with
  | nil => intro g hg; simp [growthRates] at hg
  | cons a rest ih =>
      intro g hg
      cases rest with
      | nil => simp [growthRates] at hg
      | cons b rest2 =>
          rw [growthRates] at hg
          rcases List.mem_append.mp hg with h | h
          · by_cases ha : a = 0
            · simp [ha] at h
            · simp only [if_neg ha, List.mem_singleton] at h
              subst h
              have ha0 : 0 ≤ a := hs a (List.mem_cons_self a _)
              have hb0 : 0 ≤ b := hs b (List.mem_cons_of_mem a (List.mem_cons_self b _))
              have : 0 ≤ b / a := div_nonneg hb0 ha0
              linarith
          · exact ih (fun x hx => hs x (List.mem_cons_of_mem a hx)) g h

/-- A list of values that are each at least `-1` sums to at least minus its
length. -/
lemma sum_ge_neg_length (l : List ℚ) (h : ∀ x ∈ l, -1 ≤ x) :
    -(l.length : ℚ) ≤ l.sum := by
  induction l with
  | nil => simp
  | cons a rest ih =>
      have h1 : -1 ≤ a := h a (List.mem_cons_self a rest)
      have h2 : -(rest.length : ℚ) ≤ rest.sum :=
        ih (fun x hx => h x (List.mem_cons_of_mem a hx))
      simp only [List.sum_cons, List.length_cons]
      push_cast
      linarith

/-- The mean growth of a non-negative series is at least `-1`. -/
lemma avgGrowth_ge_neg_one (s : List ℚ) (hs : ∀ x ∈ s, 0 ≤ x) :
    -1 ≤ avgGrowth s := by
  unfold avgGrowth
  by_cases h : (growthRates s).isEmpty
  · simp [h]
  · rw [if_neg h]
    have hlen : 0 < (growthRates s).length := by
      cases hg : growthRates s with
      | nil => rw [hg] at h; simp at h
      | cons x xs => simp [hg]
    have hlenQ : (0 : ℚ) < ((growthRates s).length : ℚ) := by
      exact_mod_cast hlen
    have hsum : -(((growthRates s).length : ℚ)) ≤ (growthRates s).sum :=
      sum_ge_neg_length _ (growthRates_ge_neg_one s hs)
    rw [le_div_iff₀ hlenQ]
    linarith

/-- The last value of a non-negative series is non-negative. -/
lemma lastValue_nonneg (s : List ℚ) (hs : ∀ x ∈ s, 0 ≤ x) :
    0 ≤ lastValue s := by
  unfold lastValue
  cases h : s.getLast? with
  | none => simp
  | some v =>
      rcases List.mem_getLast?_eq_getLast (l := s) (x := v) (by rw [h]; rfl)
        with ⟨hne, hv⟩
      have : v ∈ s := hv ▸ List.getLast_mem hne
      simpa using hs v this

/-- The raw compounded forecast of a non-negative series is non-negative. -/
lemma forecastValue_nonneg (s : List ℚ) (H : Nat) (hs : ∀ x ∈ s, 0 ≤ x) :
    0 ≤ forecastValue s H := by
  unfold forecastValue
  have h1 : 0 ≤ lastValue s := lastValue_nonneg s hs
  have h2 : -1 ≤ avgGrowth s := avgGrowth_ge_neg_one s hs
  have h3 : 0 ≤ 1 + avgGrowth s := by linarith
  exact mul_nonneg h1 (pow_nonneg h3 H)

/-- On a non-negative series the zero floor is inert: the emitted integer is
just the floor of the compounded forecast. -/
lemma predictedDemand_eq_floor (s : List ℚ) (H : Nat) (hs : ∀ x ∈ s, 0 ≤ x) :
    predictedDemand s H = ⌊forecastValue s H⌋ := by
  unfold predictedDemand
  rw [max_eq_right (forecastValue_nonneg s H hs)]

/-- If all row demands are non-negative, so is every monthly aggregate. -/
lemma monthlySeries_nonneg (t : List Row) (p : String)
    (ht : ∀ r ∈ t, 0 ≤ r.demand) :
    ∀ x ∈ monthlySeries t p, 0 ≤ x := by
  intro x hx
  unfold monthlySeries at hx
  rcases List.mem_map.mp hx with ⟨⟨c, v⟩, hcv, hxv⟩
  unfold aggregate at hcv
  rcases List.mem_map.mp hcv with ⟨c0, _, hc0⟩
  have hv : v = (((t.filter (fun r => r.product == p)).filter
      (fun r => monthOf r.date == c0)).map (·.demand)).sum := by
    have := congrArg Prod.snd hc0
    simpa using this.symm
  subst hxv
  rw [hv]
  apply List.sum_nonneg
  intro y hy
  rcases List.mem_map.mp hy with ⟨r, hr, hry⟩
  have hrt : r ∈ t := List.mem_of_mem_filter (List.mem_of_mem_filter hr)
  subst hry
  exact ht r hrt

/-- Unpacking membership in the forecast table: the product occurs in the
data, its series has at least two periods, and the emitted number is
`predictedDemand` of its monthly series. -/
lemma mem_forecastTable (t : List Row) (H : Nat) (p : String) (d : ℤ)
    (h : (p, d) ∈ forecastTable t H) :
    p ∈ productsOf t ∧ 2 ≤ (monthlySeries t p).length ∧
      d = predictedDemand (monthlySeries t p) H := by
  unfold forecastTable at h
  rcases List.mem_filterMap.mp h with ⟨q, hq, hqd⟩
  by_cases hlen : (monthlySeries t q).length < 2
  · simp only [hlen, if_true] at hqd
    exact absurd hqd (by simp)
  · simp only [hlen, if_false, Option.some_inj] at hqd
    have hq1 : q = p := congrArg Prod.fst hqd
    have hq2 : predictedDemand (monthlySeries t q) H = d := congrArg Prod.snd hqd
    subst hq1
    exact ⟨hq, by omega, hq2.symm⟩

/-- A series all of whose values are zero has no finite period-over-period
change at all. -/
lemma growthRates_of_all_zero (s : List ℚ) (hs : ∀ x ∈ s, x = 0) :
    growthRates s = [] := by
  induction s with
  | nil => rfl
  | cons a rest ih =>
      cases rest with
      | nil => rfl
      | cons b rest2 =>
          have ha : a = 0 := hs a (List.mem_cons_self a _)
          rw [growthRates, if_pos ha, List.nil_append]
          exact ih (fun x hx => hs x (List.mem_cons_of_mem a hx))

end GrowthLemmas

/-! ### Concrete example tables used by the closed instantiations -/

/-- Three monthly observations of one product, demands 100, 110, 121,
inventory 40 throughout. -/
def exampleA : List Row :=
  [⟨20240105, "A", 100, some 40⟩, ⟨20240203, "A", 110, some 40⟩,
   ⟨20240301, "A", 121, some 40⟩]

lemma exampleA_products : productsOf exampleA = ["A"] := by
  norm_num [productsOf, exampleA, List.dedup]

lemma exampleA_series : monthlySeries exampleA "A" = [100, 110, 121] := by
  norm_num [monthlySeries, aggregate, exampleA, monthOf,
    List.insertionSort, List.orderedInsert, List.dedup]

lemma examplePred : predictedDemand [100, 110, 121] 2 = 146 := by
  norm_num [predictedDemand, forecastValue, avgGrowth, growthRates, lastValue]

set_option maxHeartbeats 800000 in
lemma exampleA_forecast : forecastTable exampleA 2 = [("A", 146)] := by
  rw [forecastTable, exampleA_products]
  simp only [List.filterMap]
  rw [exampleA_series]
  norm_num [examplePred]

lemma exampleA_inventory : latestInventory exampleA "A" = some 40 := by
  norm_num [latestInventory, sortByDate, exampleA,
    List.insertionSort, List.orderedInsert]

set_option maxHeartbeats 800000 in
lemma exampleA_alert : alertTable exampleA 2 = [("A", 146, true)] := by
  rw [alertTable, exampleA_forecast]
  simp only [List.map]
  rw [exampleA_inventory]
  norm_num [shortageFlag]

/-- One product with a single observed month next to one with two months. -/
def exampleB : List Row :=
  [⟨20240110, "A", 7, none⟩, ⟨20240105, "B", 10, none⟩,
   ⟨20240207, "B", 12, none⟩]

lemma exampleB_products : productsOf exampleB = ["A", "B"] := by decide

lemma exampleB_seriesA : monthlySeries exampleB "A" = [7] := by
  have h : exampleB.filter (fun r => r.product == "A") =
      [⟨20240110, "A", 7, none⟩] := by decide
  rw [monthlySeries, h]
  norm_num [aggregate, monthOf, List.insertionSort, List.orderedInsert,
    List.dedup, List.filter_cons]

lemma exampleB_seriesB : monthlySeries exampleB "B" = [10, 12] := by
  have h : exampleB.filter (fun r => r.product == "B") =
      [⟨20240105, "B", 10, none⟩, ⟨20240207, "B", 12, none⟩] := by decide
  rw [monthlySeries, h]
  norm_num [aggregate, monthOf, List.insertionSort, List.orderedInsert,
    List.dedup, List.filter_cons]

/-- One product with two observed months and only NaN inventory values. -/
def exampleC : List Row :=
  [⟨20240105, "A", 10, none⟩, ⟨20240207, "A", 12, none⟩]

lemma exampleC_products : productsOf exampleC = ["A"] := by
  norm_num [productsOf, exampleC, List.dedup]

lemma exampleC_series : monthlySeries exampleC "A" = [10, 12] := by
  norm_num [monthlySeries, aggregate, exampleC, monthOf,
    List.insertionSort, List.orderedInsert, List.dedup]

lemma exampleC_inventory : latestInventory exampleC "A" = none := by
  norm_num [latestInventory, sortByDate, exampleC,
    List.insertionSort, List.orderedInsert]

lemma exampleC_pred : predictedDemand [10, 12] 1 = 14 := by
  norm_num [predictedDemand, forecastValue, avgGrowth, growthRates, lastValue]

set_option maxHeartbeats 800000 in
lemma exampleC_forecast : forecastTable exampleC 1 = [("A", 14)] := by
  rw [forecastTable, exampleC_products]
  simp only [List.filterMap]
  rw [exampleC_series]
  norm_num [exampleC_pred]

set_option maxHeartbeats 800000 in
lemma exampleC_alert : alertTable exampleC 1 = [("A", 14, false)] := by
  rw [alertTable, exampleC_forecast]
  simp only [List.map]
  rw [exampleC_inventory]
  norm_num [shortageFlag]

/-- A 20-row raw table whose first 3 rows have unparseable dates. -/
def exampleD : List RawRow :=
  (List.range 20).map (fun i =>
    if i < 3 then ⟨none, "P", Cell.num 1, none⟩
    else ⟨some (20240100 + i), "P", Cell.num 1, none⟩)

/-- A raw table whose single row has a valid date but a non-numeric demand
cell. -/
def exampleE : List RawRow :=
  [⟨some 20240101, "A", Cell.str "oops", some 5⟩]

/-- The claim-side test that a cell is a valid non-negative number. -/
def cellIsNonnegNum : Cell → Bool
  | Cell.num q => decide (0 ≤ q)
  | Cell.str _ => false

/-- Two raw rows of one product falling in the same month, next to one row
of another product in a different month. -/
def exampleF : List Row :=
  [⟨20240103, "A", 3, none⟩, ⟨20240128, "A", 4, none⟩,
   ⟨20240215, "B", 5, none⟩]

lemma exampleD_counts :
    invalidCount exampleD = 3 ∧ (dropInvalid exampleD).length = 17 ∧
      dropInvalid exampleD ≠ [] := by
  refine ⟨?_, ?_, ?_⟩ <;>
    simp [invalidCount, dropInvalid, exampleD, List.range_succ]

/-! ### Claim theorems -/

/-- C1: for every product whose monthly-aggregated demand series has length
at least 2 (and non-negative demand data) and every horizon `H` in `1..12`,
the emitted forecast equals `last_observed * (1 + g) ^ H` truncated to an
integer, where `g` is the mean of the finite period-over-period changes. -/
theorem c1_forecast_formula (t : List Row) (H : Nat) (p : String) (d : ℤ)
    (hmem : (p, d) ∈ forecastTable t H)
    (hnn : ∀ r ∈ t, 0 ≤ r.demand)
    (_hlen : 2 ≤ (monthlySeries t p).length)
    (_hH1 : 1 ≤ H) (_hH2 : H ≤ 12) :
    d = ⌊lastValue (monthlySeries t p) *
          (1 + avgGrowth (monthlySeries t p)) ^ H⌋ := by
  rcases mem_forecastTable t H p d hmem with ⟨-, -, hd⟩
  rw [hd, predictedDemand_eq_floor _ H (monthlySeries_nonneg t p hnn)]
  rfl

/-- C1 instantiated: on the series `[100, 110, 121]` with horizon 2 the
emitted Predicted Demand is `146 = ⌊121 * 1.1 ^ 2⌋`. -/
theorem c1_forecast_formula_witness :
    ("A", (146:ℤ)) ∈ forecastTable exampleA 2 ∧
      monthlySeries exampleA "A" = [100, 110, 121] ∧
      (146:ℤ) = ⌊lastValue (monthlySeries exampleA "A") *
        (1 + avgGrowth (monthlySeries exampleA "A")) ^ 2⌋ := by
  have hmem : ("A", (146:ℤ)) ∈ forecastTable exampleA 2 := by
    rw [exampleA_forecast]
    exact List.mem_singleton.mpr rfl
  refine ⟨hmem, exampleA_series, ?_⟩
  refine c1_forecast_formula exampleA 2 "A" 146 hmem ?_ ?_ ?_ ?_
  · intro r hr
    simp only [exampleA, List.mem_cons, List.not_mem_nil, or_false] at hr
    rcases hr with h | h | h <;> subst h <;> norm_num
  · rw [exampleA_series]
    norm_num
  · norm_num
  · norm_num

/-- C2: every Predicted Demand value emitted in the forecast table is
non-negative (the zero floor invariant). -/
theorem c2_forecast_nonneg (t : List Row) (H : Nat) (p : String) (d : ℤ)
    (hmem : (p, d) ∈ forecastTable t H) : 0 ≤ d := by
  rcases mem_forecastTable t H p d hmem with ⟨-, -, hd⟩
  rw [hd]
  unfold predictedDemand
  refine Int.le_floor.mpr ?_
  exact_mod_cast le_max_left (0:ℚ) (forecastValue (monthlySeries t p) H)

/-- C2 instantiated at a concrete emitted forecast row. -/
theorem c2_forecast_nonneg_witness :
    ("A", (146:ℤ)) ∈ forecastTable exampleA 2 ∧ (0:ℤ) ≤ 146 := by
  have hmem : ("A", (146:ℤ)) ∈ forecastTable exampleA 2 := by
    rw [exampleA_forecast]
    exact List.mem_singleton.mpr rfl
  exact ⟨hmem, c2_forecast_nonneg exampleA 2 "A" 146 hmem⟩

/-- C3: non-finite changes are discarded before averaging: a strictly zero
series gets mean growth 0 and forecast 0, and for `[50, 0, 60]` the infinite
change from 0 to 60 is discarded, the mean growth is `-1`, and the forecast
is 0 for every horizon `H ≥ 1`. -/
theorem c3_nonfinite_discarded (s : List ℚ) (H : Nat) :
    (s ≠ [] → (∀ x ∈ s, x = 0) →
      avgGrowth s = 0 ∧ predictedDemand s H = 0) ∧
    (1 ≤ H →
      avgGrowth [50, 0, 60] = -1 ∧ predictedDemand [50, 0, 60] H = 0) := by
  constructor
  · intro hne hz
    have hg : growthRates s = [] := growthRates_of_all_zero s hz
    have ha : avgGrowth s = 0 := by unfold avgGrowth; rw [hg]; rfl
    refine ⟨ha, ?_⟩
    have hl : lastValue s = 0 := by
      unfold lastValue
      rw [List.getLast?_eq_getLast_of_ne_nil hne]
      simpa using hz _ (List.getLast_mem hne)
    unfold predictedDemand forecastValue
    rw [hl, zero_mul]
    simp
  · intro hH
    have hg : avgGrowth [50, 0, 60] = -1 := by
      norm_num [avgGrowth, growthRates]
    refine ⟨hg, ?_⟩
    unfold predictedDemand forecastValue
    rw [hg]
    have h0 : (1 + (-1) : ℚ) = 0 := by norm_num
    rw [h0, zero_pow (by omega : H ≠ 0), mul_zero]
    simp

/-- C3 instantiated at the all-zero series `[0, 0]` and at `[50, 0, 60]`,
horizon 3. -/
theorem c3_nonfinite_discarded_witness :
    (avgGrowth [0, 0] = 0 ∧ predictedDemand [0, 0] 3 = 0) ∧
    (avgGrowth [50, 0, 60] = -1 ∧ predictedDemand [50, 0, 60] 3 = 0) := by
  refine ⟨(c3_nonfinite_discarded [0, 0] 3).1 (by simp) ?_,
    (c3_nonfinite_discarded [0, 0] 3).2 (by norm_num)⟩
  intro x hx
  simp only [List.mem_cons, List.not_mem_nil, or_false] at hx
  rcases hx with h | h <;> exact h

/-- C4: a product whose monthly series has fewer than 2 periods gets no
forecast row, and this never prevents any other product with a long enough
series from getting its row. -/
theorem c4_short_series_skipped (t : List Row) (H : Nat) (p : String)
    (hshort : (monthlySeries t p).length < 2) :
    (∀ d : ℤ, (p, d) ∉ forecastTable t H) ∧
    (∀ q ∈ productsOf t, 2 ≤ (monthlySeries t q).length →
      (q, predictedDemand (monthlySeries t q) H) ∈ forecastTable t H) := by
  constructor
  · intro d hd
    rcases mem_forecastTable t H p d hd with ⟨-, hlen, -⟩
    omega
  · intro q hq hlen
    unfold forecastTable
    refine List.mem_filterMap.mpr ⟨q, hq, ?_⟩
    show (if (monthlySeries t q).length < 2 then none
      else some (q, predictedDemand (monthlySeries t q) H)) = _
    rw [if_neg (by omega)]

/-- C4 instantiated: in `exampleB` the product with one observed month gets
no forecast row while the product with two months keeps its row. -/
theorem c4_short_series_skipped_witness :
    ("A", (7:ℤ)) ∉ forecastTable exampleB 1 ∧
    ("B", predictedDemand (monthlySeries exampleB "B") 1) ∈
      forecastTable exampleB 1 := by
  have h := c4_short_series_skipped exampleB 1 "A"
    (by rw [exampleB_seriesA]; norm_num)
  refine ⟨h.1 7, h.2 "B" ?_ (by rw [exampleB_seriesB]; norm_num)⟩
  rw [exampleB_products]
  simp

/-- C5: for every row of the shortage-alert table, the shortage flag holds
exactly when the product's latest inventory (most recent row by date) is
present and strictly below the predicted demand; inventory 40 against
demand 55 flags a shortage, inventory 60 against demand 55 does not. -/
theorem c5_shortage_flag (t : List Row) (H : Nat) (p : String) (d : ℤ)
    (b : Bool) (hmem : (p, d, b) ∈ alertTable t H) :
    (b = true ↔ ∃ v, latestInventory t p = some v ∧ v < (d : ℚ)) ∧
    shortageFlag (some 40) 55 = true ∧ shortageFlag (some 60) 55 = false := by
  refine ⟨?_, by norm_num [shortageFlag], by norm_num [shortageFlag]⟩
  rcases List.mem_map.mp hmem with ⟨pd, hpd, heq⟩
  have h1 : pd.1 = p := congrArg (fun x => x.1) heq
  have h2 : pd.2 = d := congrArg (fun x => x.2.1) heq
  have h3 : shortageFlag (latestInventory t pd.1) pd.2 = b :=
    congrArg (fun x => x.2.2) heq
  rw [h1, h2] at h3
  subst h3
  cases hinv : latestInventory t p with
  | none => simp [shortageFlag, hinv]
  | some v =>
      simp only [shortageFlag, hinv, decide_eq_true_eq, Option.some_inj]
      constructor
      · intro hlt
        exact ⟨v, rfl, hlt⟩
      · rintro ⟨w, hw, hlt⟩
        rwa [hw]

/-- C5 instantiated at the concrete alert row of `exampleA`. -/
theorem c5_shortage_flag_witness :
    ("A", (146:ℤ), true) ∈ alertTable exampleA 2 ∧
      (true = true ↔ ∃ v, latestInventory exampleA "A" = some v ∧
        v < ((146:ℤ) : ℚ)) := by
  have hmem : ("A", (146:ℤ), true) ∈ alertTable exampleA 2 := by
    rw [exampleA_alert]
    exact List.mem_singleton.mpr rfl
  exact ⟨hmem, (c5_shortage_flag exampleA 2 "A" 146 true hmem).1⟩

/-- C8: the reorder flag is monotone in inventory: with the predicted demand
fixed, raising an inventory level that is not flagged never produces a
flag. -/
theorem c8_flag_monotone (i1 i2 : ℚ) (d : ℤ) (h12 : i1 ≤ i2)
    (hok : shortageFlag (some i1) d = false) :
    shortageFlag (some i2) d = false := by
  simp only [shortageFlag, decide_eq_false_iff_not, not_lt] at hok ⊢
  linarith

/-- C8 instantiated: inventory 60 against demand 55 stays unflagged. -/
theorem c8_flag_monotone_witness :
    shortageFlag (some 60) 55 = false := by
  refine c8_flag_monotone 55 60 55 (by norm_num) ?_
  norm_num [shortageFlag]

/-- C10: a product of the forecast table whose latest inventory is missing
after the left merge (NaN inventory) is never flagged as a shortage — the
comparison with a missing value is false and the product reads as ok. -/
theorem c10_missing_inventory_ok (t : List Row) (H : Nat) (p : String)
    (d : ℤ) (b : Bool) (hmem : (p, d, b) ∈ alertTable t H)
    (hnone : latestInventory t p = none) : b = false := by
  rcases List.mem_map.mp hmem with ⟨pd, hpd, heq⟩
  have h1 : pd.1 = p := congrArg (fun x => x.1) heq
  have h3 : shortageFlag (latestInventory t pd.1) pd.2 = b :=
    congrArg (fun x => x.2.2) heq
  rw [h1, hnone] at h3
  rw [← h3]
  rfl

/-- C10 instantiated: in `exampleC` every inventory cell is NaN, the product
still appears in the alert table, and its flag is false. -/
theorem c10_missing_inventory_ok_witness :
    ("A", (14:ℤ), false) ∈ alertTable exampleC 1 ∧ false = false := by
  have hmem : ("A", (14:ℤ), false) ∈ alertTable exampleC 1 := by
    rw [exampleC_alert]
    exact List.mem_singleton.mpr rfl
  exact ⟨hmem,
    c10_missing_inventory_ok exampleC 1 "A" 14 false hmem exampleC_inventory⟩

/-- Dropping the rows with unparseable dates loses exactly the reported
number of rows. -/
lemma dropInvalid_length (t : List RawRow) :
    (dropInvalid t).length + invalidCount t = t.length := by
  induction t with
  | nil => rfl
  | cons r rest ih =>
      unfold dropInvalid invalidCount at *
      cases hd : r.date with
      | none =>
          simp only [List.filter_cons, hd, Option.isSome_none, Option.isNone_none,
            if_false, if_true, List.length_cons, Bool.false_eq_true]
          omega
      | some v =>
          simp only [List.filter_cons, hd, Option.isSome_some, Option.isNone_some,
            if_true, if_false, List.length_cons, Bool.false_eq_true]
          omega

/-- C6: after coercing the date column, every unparseable-date row is
dropped, the number of dropped rows is exactly the reported count, and the
computation proceeds on the cleaned table unless it became empty, in which
case it halts with an error. -/
theorem c6_date_cleaning (t : List RawRow) :
    (∀ r ∈ dropInvalid t, r.date.isSome = true) ∧
    (dropInvalid t).length + invalidCount t = t.length ∧
    (dropInvalid t ≠ [] →
      prepare t = Except.ok (invalidCount t, dropInvalid t)) ∧
    (dropInvalid t = [] →
      prepare t =
        Except.error "No valid date data found in the selected column.") := by
  refine ⟨?_, dropInvalid_length t, ?_, ?_⟩
  · intro r hr
    unfold dropInvalid at hr
    exact (List.mem_filter.mp hr).2
  · intro hne
    show (if (dropInvalid t).isEmpty then _ else _) = _
    rw [if_neg (by simpa [List.isEmpty_iff] using hne)]
  · intro hnil
    show (if (dropInvalid t).isEmpty then _ else _) = _
    rw [if_pos (by simp [List.isEmpty_iff, hnil])]

/-- C6 instantiated: 3 invalid dates out of 20 rows leave a 17-row cleaned
table with a reported count of 3, and the computation proceeds. -/
theorem c6_date_cleaning_witness :
    invalidCount exampleD = 3 ∧ (dropInvalid exampleD).length = 17 ∧
      prepare exampleD = Except.ok (invalidCount exampleD, dropInvalid exampleD) :=
  ⟨exampleD_counts.1, exampleD_counts.2.1,
    (c6_date_cleaning exampleD).2.2.1 exampleD_counts.2.2⟩

/-- C7 (amended): the cleaning stage drops rows with unparseable dates but
performs no coercion at all on the demand column — every surviving row is a
verbatim row of the input, its demand cell included. -/
theorem c7_no_demand_coercion (t : List RawRow) (n : Nat)
    (cleaned : List RawRow) (h : prepare t = Except.ok (n, cleaned)) :
    ∀ r ∈ cleaned, r ∈ t ∧ r.date.isSome = true := by
  have h2 : cleaned = dropInvalid t := by
    by_cases he : (dropInvalid t).isEmpty
    · rw [show prepare t = Except.error
          "No valid date data found in the selected column." from if_pos he] at h
      cases h
    · rw [show prepare t = Except.ok (invalidCount t, dropInvalid t)
          from if_neg he] at h
      injection h with hpair
      exact (congrArg Prod.snd hpair).symm
  intro r hr
  rw [h2] at hr
  unfold dropInvalid at hr
  exact ⟨(List.mem_filter.mp hr).1, (List.mem_filter.mp hr).2⟩

/-- C7 amended-claim instantiation: the non-numeric demand row of `exampleE`
survives cleaning verbatim. -/
theorem c7_no_demand_coercion_witness :
    (⟨some 20240101, "A", Cell.str "oops", some 5⟩ : RawRow) ∈ exampleE ∧
      (⟨some 20240101, "A", Cell.str "oops", some 5⟩ : RawRow).date.isSome
        = true := by
  have h := c7_no_demand_coercion exampleE 0 exampleE rfl
    ⟨some 20240101, "A", Cell.str "oops", some 5⟩
    (List.mem_singleton.mpr rfl)
  exact h

/-- C7 counterexample to the claim as stated: after cleaning `exampleE` the
surviving demand cell is still the non-numeric string, not the number 0, so
it is false that all demand values are valid non-negative numbers after
cleaning. -/
theorem c7_counterexample :
    ((dropInvalid exampleE).map (·.demand)).all cellIsNonnegNum = false ∧
      (dropInvalid exampleE).map (·.demand) = [Cell.str "oops"] :=
  ⟨rfl, rfl⟩

/-- C9: summing the per-period aggregates (monthly or yearly) over all
periods recovers the sum of the demand column of the cleaned table, and
each period's aggregate is the sum — never an overwrite — of all rows in
its bucket. -/
theorem c9_aggregation_roundtrip (t : List Row) :
    ((aggregate (fun r => monthOf r.date) t).map (·.2)).sum
        = (t.map (·.demand)).sum ∧
    ((aggregate (fun r => yearOf r.date) t).map (·.2)).sum
        = (t.map (·.demand)).sum ∧
    (∀ c v, (c, v) ∈ aggregate (fun r => monthOf r.date) t →
      v = ((t.filter (fun r => monthOf r.date == c)).map (·.demand)).sum) :=
  ⟨aggregate_sum _ t, aggregate_sum _ t,
    fun c v h => aggregate_mem_val _ t c v h⟩

lemma exampleF_agg : aggregate (fun r => monthOf r.date) exampleF =
    [(202401, 7), (202402, 5)] := by
  norm_num [aggregate, exampleF, monthOf, List.insertionSort,
    List.orderedInsert, List.dedup, List.filter_cons]

/-- C9 instantiated on `exampleF`: two same-month rows with demands 3 and 4
aggregate to 7 (summed, not overwritten), and the aggregate total equals the
raw total. -/
theorem c9_aggregation_roundtrip_witness :
    ((aggregate (fun r => monthOf r.date) exampleF).map (·.2)).sum
        = (exampleF.map (·.demand)).sum ∧
      (7:ℚ) = ((exampleF.filter
        (fun r => monthOf r.date == 202401)).map (·.demand)).sum := by
  refine ⟨(c9_aggregation_roundtrip exampleF).1, ?_⟩
  refine (c9_aggregation_roundtrip exampleF).2.2 202401 7 ?_
  rw [exampleF_agg]
  simp
